import Mathlib

set_option exponentiation.threshold 3000000
set_option maxRecDepth 10000

/-!
Verification of the Neutron DEX tick↔price conversion core
(`tick_price_calculator.py` / `tick_price_converter.py`).

Embedding conventions:
* Python `Decimal` values are modelled as exact rationals (`ℚ`).  The source
  runs `Decimal` at 50 significant digits, far finer than any tolerance the
  specification states; the model performs the same arithmetic exactly.
* `price_to_tick` computes `round(ln(price) / ln(BASE))` (one file via
  `Decimal.ln`, the other via `math.log`; both are the nearest-integer
  base-1.0001 logarithm).  The model computes that nearest integer exactly:
  for a rational `p > 0`, `log_BASE p` is never a half-integer (an odd power
  of `10001/10000` is not a rational square), so "round to nearest" is
  unambiguous and independent of the tie-breaking rule.  `roundLog` realises
  it by fuelled repeated division, and `roundLog_eq` characterises it by
  `BASE ^ (2k-1) ≤ p² < BASE ^ (2k+1)`.
* Python `raise ValueError` is modelled as `Except.error` with a message;
  `Decimal` division by zero (which raises `DivisionByZero`) likewise.
-/

namespace NeutronDex

/-- Source constant `BASE = Decimal("1.0001")`. -/
def BASE : ℚ := 10001 / 10000

/-- Source constant `MAX_TICK = 559680`. -/
def MAX_TICK : ℤ := 559680

/-- Source constant `MIN_PRICE = Decimal("0.000000000000000000000000495")`
(24 zeros then `495`, i.e. 4.95e-25). -/
def MIN_PRICE : ℚ := 495 / 10 ^ 27

/-- Source constant
`MAX_PRICE = Decimal("2020125331305056766452345.127500016657360222036663651")`. -/
def MAX_PRICE : ℚ := 2020125331305056766452345127500016657360222036663651 / 10 ^ 27

/-- Embedding of `tick_to_price` (identical in both source files):
reject `abs(tick) > MAX_TICK`; return `1 / BASE**abs(tick)` for negative
ticks and `BASE**tick` otherwise. -/
def tick_to_price (tick : ℤ) : Except String ℚ :=
  if |tick| > MAX_TICK then .error "Tick is out of range"
  else if tick < 0 then .ok (1 / BASE ^ tick.natAbs)
  else .ok (BASE ^ tick.natAbs)

/-- Fuel bound for `roundLog`: one more than the largest tick index that any
in-range price can round to. -/
def LOG_FUEL : ℕ := 559681

/-- Exact nearest-integer base-`BASE` logarithm of `p` (intended for
`p ≥ 1`), by fuelled repeated division: `round(log_BASE p) = 0` iff
`p² < BASE`, and it decreases by one when `p` is divided by `BASE`.  This is
the exact value of the source's `round(ln(p) / ln(BASE))`. -/
def roundLog : ℕ → ℚ → ℕ
  | 0, _ => 0
  | fuel + 1, p => if p * p < BASE then 0 else roundLog fuel (p / BASE) + 1

/-- Embedding of `price_to_tick` (identical semantics in both source files):
reject non-positive prices, then prices outside `[MIN_PRICE, MAX_PRICE]`;
for `price < 1` compute the rounded logarithm of `1/price` and negate,
otherwise compute it directly. -/
def price_to_tick (price : ℚ) : Except String ℤ :=
  if price ≤ 0 then .error "Price must be positive"
  else if price < MIN_PRICE ∨ price > MAX_PRICE then .error "Price is out of range"
  else if price < 1 then .ok (-(roundLog LOG_FUEL (1 / price) : ℤ))
  else .ok ((roundLog LOG_FUEL price : ℤ))

/-- Embedding of `price_0to1_to_1to0`: the source performs no validation and
just returns `Decimal("1") / price_0to1`, which raises `DivisionByZero`
exactly when the input is zero. -/
def price_0to1_to_1to0 (price_0to1 : ℚ) : Except String ℚ :=
  if price_0to1 = 0 then .error "Division by zero"
  else .ok (1 / price_0to1)

/-- Embedding of `validate_round_trip` (`tick_price_calculator.py`): convert
tick to price and back, return whether the recovered tick is within 1; any
error in either conversion yields `false`.  Total by construction, mirroring
the source's catch-all `except: return False`. -/
def validate_round_trip (tick : ℤ) : Bool :=
  match tick_to_price tick with
  | .error _ => false
  | .ok price =>
    match price_to_tick price with
    | .error _ => false
    | .ok tick_back => decide (|tick - tick_back| ≤ 1)

/-- Embedding of `validate_conversion` (`tick_price_converter.py`): same body
as `validate_round_trip`; the `tolerance` parameter is accepted but unused,
exactly as in the source. -/
def validate_conversion (tick : ℤ) (tolerance : ℚ) : Bool :=
  match tick_to_price tick with
  | .error _ => false
  | .ok price =>
    match price_to_tick price with
    | .error _ => false
    | .ok tick_back => decide (|tick - tick_back| ≤ 1)

lemma one_lt_BASE : (1 : ℚ) < BASE := by norm_num [BASE]

lemma BASE_pos : (0 : ℚ) < BASE := by norm_num [BASE]

lemma MIN_PRICE_pos : (0 : ℚ) < MIN_PRICE := by norm_num [MIN_PRICE]

lemma MIN_PRICE_lt_one : MIN_PRICE < 1 := by norm_num [MIN_PRICE]

lemma one_lt_MAX_PRICE : (1 : ℚ) < MAX_PRICE := by norm_num [MAX_PRICE]

lemma nat_pow_le_max :
    (10001 : ℕ) ^ 559680 * 10 ^ 27 ≤
      2020125331305056766452345127500016657360222036663651 * 10 ^ 2238720 := by
  decide

lemma nat_min_le_pow : (495 : ℕ) * 10001 ^ 559680 ≤ 10 ^ 2238747 := by decide

lemma nat_gap_lower :
    ((10001 : ℕ) ^ 559680 + 78 * 10 ^ 2238720) * 10 ^ 27 <
      2020125331305056766452345127500016657360222036663651 * 10 ^ 2238720 := by
  decide

lemma nat_gap_upper :
    (2020125331305056766452345127500016657360222036663651 : ℕ) * 10 ^ 2238720 <
      ((10001 : ℕ) ^ 559680 + 79 * 10 ^ 2238720) * 10 ^ 27 := by
  decide

lemma nat_inv_gap : (10 : ℕ) ^ 2238748 < 4955 * 10001 ^ 559680 := by decide

lemma BASE_pow_eq (n : ℕ) : BASE ^ n = (10001 : ℚ) ^ n / 10 ^ (4 * n) := by
  rw [BASE, div_pow]
  congr 1
  rw [show (10000 : ℚ) = 10 ^ 4 by norm_num, ← pow_mul]

lemma BASE_pow_le_MAX : BASE ^ (559680 : ℕ) ≤ MAX_PRICE := by
  rw [BASE_pow_eq, MAX_PRICE, div_le_div_iff₀ (by positivity) (by positivity)]
  rw [show 4 * 559680 = 2238720 from rfl]
  exact_mod_cast nat_pow_le_max

lemma MIN_le_inv_BASE_pow : MIN_PRICE ≤ 1 / BASE ^ (559680 : ℕ) := by
  rw [BASE_pow_eq, one_div_div, MIN_PRICE,
    div_le_div_iff₀ (by positivity) (by positivity),
    show 4 * 559680 = 2238720 from rfl,
    show ((10 : ℚ) ^ 2238720) * 10 ^ 27 = 10 ^ 2238747 by rw [← pow_add]]
  exact_mod_cast nat_min_le_pow

lemma MAX_gap_lower : BASE ^ (559680 : ℕ) + 78 < MAX_PRICE := by
  rw [BASE_pow_eq, MAX_PRICE, div_add' _ _ _ (by positivity),
    div_lt_div_iff₀ (by positivity) (by positivity),
    show 4 * 559680 = 2238720 from rfl]
  exact_mod_cast nat_gap_lower

lemma MAX_gap_upper : MAX_PRICE < BASE ^ (559680 : ℕ) + 79 := by
  rw [BASE_pow_eq, MAX_PRICE, div_add' _ _ _ (by positivity),
    div_lt_div_iff₀ (by positivity) (by positivity),
    show 4 * 559680 = 2238720 from rfl]
  exact_mod_cast nat_gap_upper

lemma inv_BASE_pow_gap : 1 / BASE ^ (559680 : ℕ) < MIN_PRICE + 5 / 10 ^ 28 := by
  rw [BASE_pow_eq, one_div_div, MIN_PRICE,
    show (495 : ℚ) / 10 ^ 27 + 5 / 10 ^ 28 = 4955 / 10 ^ 28 by norm_num,
    div_lt_div_iff₀ (by positivity) (by positivity),
    show 4 * 559680 = 2238720 from rfl,
    show ((10 : ℚ) ^ 2238720) * 10 ^ 28 = 10 ^ 2238748 by rw [← pow_add]]
  exact_mod_cast nat_inv_gap

lemma roundLog_eq :
    ∀ (k fuel : ℕ) (p : ℚ), k < fuel →
      BASE ^ (2 * k) ≤ p ^ 2 * BASE → p ^ 2 < BASE ^ (2 * k + 1) →
      roundLog fuel p = k := by
  intro k
  induction k with
  | zero =>
    intro fuel p hfuel _ hhi
    obtain ⟨f, rfl⟩ : ∃ f, fuel = f + 1 := ⟨fuel - 1, by omega⟩
    have hp2 : p * p < BASE := by
      have := hhi
      rw [pow_one, sq] at this
      exact this
    simp only [roundLog, if_pos hp2]
  | succ j ih =>
    intro fuel p hfuel hlo hhi
    obtain ⟨f, rfl⟩ : ∃ f, fuel = f + 1 := ⟨fuel - 1, by omega⟩
    have hB2 : BASE ^ 2 ≤ p ^ 2 * BASE := by
      refine le_trans ?_ hlo
      exact pow_le_pow_right₀ one_lt_BASE.le (by omega)
    have hge' : BASE ≤ p ^ 2 := by nlinarith [hB2, BASE_pos]
    have hcond : ¬ p * p < BASE := not_lt.mpr (by rw [← pow_two]; exact hge')
    simp only [roundLog, if_neg hcond]
    have hrec : roundLog f (p / BASE) = j := by
      apply ih f (p / BASE) (by omega)
      · rw [div_pow, div_mul_eq_mul_div, le_div_iff₀ (pow_pos BASE_pos 2)]
        calc BASE ^ (2 * j) * BASE ^ 2 = BASE ^ (2 * (j + 1)) := by
              rw [← pow_add]; ring_nf
          _ ≤ p ^ 2 * BASE := hlo
      · rw [div_pow, div_lt_iff₀ (pow_pos BASE_pos 2)]
        calc p ^ 2 < BASE ^ (2 * (j + 1) + 1) := hhi
          _ = BASE ^ (2 * j + 1) * BASE ^ 2 := by rw [← pow_add]; ring_nf
    rw [hrec]

lemma roundLog_pow (n : ℕ) (hn : n < LOG_FUEL) : roundLog LOG_FUEL (BASE ^ n) = n := by
  apply roundLog_eq n LOG_FUEL (BASE ^ n) hn
  · rw [← pow_mul]
    rw [show n * 2 = 2 * n by ring]
    exact le_mul_of_one_le_right (pow_pos BASE_pos _).le one_lt_BASE.le
  · rw [← pow_mul]
    rw [show n * 2 = 2 * n by ring]
    exact pow_lt_pow_right₀ one_lt_BASE (by omega)

lemma tick_to_price_out_of_range (t : ℤ) (ht : MAX_TICK < |t|) :
    tick_to_price t = .error "Tick is out of range" := by
  unfold tick_to_price
  rw [if_pos ht]

lemma tick_to_price_eq (t : ℤ) (ht : |t| ≤ MAX_TICK) :
    tick_to_price t = .ok (BASE ^ t) := by
  unfold tick_to_price
  rw [if_neg (not_lt.mpr ht)]
  by_cases h : t < 0
  · rw [if_pos h]
    congr 1
    have hna : ((t.natAbs : ℤ)) = -t := by omega
    rw [one_div, ← zpow_natCast BASE t.natAbs, ← zpow_neg, hna, neg_neg]
  · rw [if_neg h]
    congr 1
    have hna : ((t.natAbs : ℤ)) = t := by omega
    rw [← zpow_natCast BASE t.natAbs, hna]

lemma pow_in_range (n : ℕ) (hn : n ≤ 559680) :
    MIN_PRICE ≤ BASE ^ n ∧ BASE ^ n ≤ MAX_PRICE := by
  have h1 : (1 : ℚ) ≤ BASE ^ n := one_le_pow₀ one_lt_BASE.le
  refine ⟨le_trans MIN_PRICE_lt_one.le h1, ?_⟩
  exact le_trans (pow_le_pow_right₀ one_lt_BASE.le hn) BASE_pow_le_MAX

lemma inv_pow_in_range (n : ℕ) (hn : n ≤ 559680) :
    MIN_PRICE ≤ 1 / BASE ^ n ∧ 1 / BASE ^ n ≤ MAX_PRICE := by
  have hp : (0 : ℚ) < BASE ^ n := pow_pos BASE_pos n
  have h1 : (1 : ℚ) ≤ BASE ^ n := one_le_pow₀ one_lt_BASE.le
  constructor
  · calc MIN_PRICE ≤ 1 / BASE ^ (559680 : ℕ) := MIN_le_inv_BASE_pow
      _ ≤ 1 / BASE ^ n :=
        one_div_le_one_div_of_le hp (pow_le_pow_right₀ one_lt_BASE.le hn)
  · refine le_trans ?_ one_lt_MAX_PRICE.le
    rw [div_le_one hp]
    exact h1

lemma price_to_tick_pow (n : ℕ) (hn : n ≤ 559680) :
    price_to_tick (BASE ^ n) = .ok (n : ℤ) := by
  obtain ⟨hmin, hmax⟩ := pow_in_range n hn
  have hp : (0 : ℚ) < BASE ^ n := pow_pos BASE_pos n
  have h1 : (1 : ℚ) ≤ BASE ^ n := one_le_pow₀ one_lt_BASE.le
  unfold price_to_tick
  rw [if_neg (not_le.mpr hp),
    if_neg (by rw [not_or]; exact ⟨not_lt.mpr hmin, not_lt.mpr hmax⟩),
    if_neg (not_lt.mpr h1),
    roundLog_pow n (by unfold LOG_FUEL; omega)]

lemma price_to_tick_inv_pow (n : ℕ) (hn : n ≤ 559680) (h0 : 0 < n) :
    price_to_tick (1 / BASE ^ n) = .ok (-(n : ℤ)) := by
  obtain ⟨hmin, hmax⟩ := inv_pow_in_range n hn
  have hp : (0 : ℚ) < BASE ^ n := pow_pos BASE_pos n
  have hinvpos : (0 : ℚ) < 1 / BASE ^ n := by positivity
  have hlt1 : 1 / BASE ^ n < 1 := by
    rw [div_lt_one hp]
    exact one_lt_pow₀ one_lt_BASE h0.ne'
  unfold price_to_tick
  rw [if_neg (not_le.mpr hinvpos),
    if_neg (by rw [not_or]; exact ⟨not_lt.mpr hmin, not_lt.mpr hmax⟩),
    if_pos hlt1, one_div_one_div,
    roundLog_pow n (by unfold LOG_FUEL; omega)]

lemma round_trip_exact (t : ℤ) (ht : |t| ≤ MAX_TICK) :
    ∃ p : ℚ, tick_to_price t = .ok p ∧ price_to_tick p = .ok t := by
  have habs : t.natAbs ≤ 559680 := by
    have ht' : ((t.natAbs : ℤ)) ≤ 559680 := by
      rw [Int.abs_eq_natAbs] at ht
      exact ht
    omega
  by_cases h : t < 0
  · have h1 : tick_to_price t = .ok (1 / BASE ^ t.natAbs) := by
      unfold tick_to_price
      rw [if_neg (not_lt.mpr ht), if_pos h]
    refine ⟨_, h1, ?_⟩
    rw [price_to_tick_inv_pow t.natAbs habs (by omega)]
    congr 1
    omega
  · have h1 : tick_to_price t = .ok (BASE ^ t.natAbs) := by
      unfold tick_to_price
      rw [if_neg (not_lt.mpr ht), if_neg h]
    refine ⟨_, h1, ?_⟩
    rw [price_to_tick_pow t.natAbs habs]
    congr 1
    omega

lemma price_to_tick_ok_iff (p : ℚ) :
    (∃ t, price_to_tick p = .ok t) ↔ MIN_PRICE ≤ p ∧ p ≤ MAX_PRICE := by
  constructor
  · rintro ⟨t, ht⟩
    unfold price_to_tick at ht
    by_cases h0 : p ≤ 0
    · rw [if_pos h0] at ht
      simp at ht
    rw [if_neg h0] at ht
    by_cases h1 : p < MIN_PRICE ∨ p > MAX_PRICE
    · rw [if_pos h1] at ht
      simp at ht
    · push_neg at h1
      exact h1
  · rintro ⟨hmin, hmax⟩
    have hpos : 0 < p := lt_of_lt_of_le MIN_PRICE_pos hmin
    unfold price_to_tick
    rw [if_neg (not_le.mpr hpos),
      if_neg (by rw [not_or]; exact ⟨not_lt.mpr hmin, not_lt.mpr hmax⟩)]
    by_cases h : p < 1
    · exact ⟨_, by rw [if_pos h]⟩
    · exact ⟨_, by rw [if_neg h]⟩

lemma price_to_tick_error_iff (p : ℚ) :
    (∃ e, price_to_tick p = .error e) ↔ (p ≤ 0 ∨ p < MIN_PRICE ∨ p > MAX_PRICE) := by
  constructor
  · rintro ⟨e, he⟩
    by_contra hc
    push_neg at hc
    obtain ⟨h0, hmin, hmax⟩ := hc
    obtain ⟨t, ht⟩ := (price_to_tick_ok_iff p).mpr ⟨hmin, hmax⟩
    rw [he] at ht
    simp at ht
  · intro h
    unfold price_to_tick
    by_cases h0 : p ≤ 0
    · exact ⟨_, by rw [if_pos h0]⟩
    · have h1 : p < MIN_PRICE ∨ p > MAX_PRICE := by
        rcases h with h | h | h
        · exact absurd h h0
        · exact Or.inl h
        · exact Or.inr h
      exact ⟨_, by rw [if_neg h0, if_pos h1]⟩

lemma validate_round_trip_true_iff (t : ℤ) :
    validate_round_trip t = true ↔
      ∃ (p : ℚ) (t' : ℤ),
        tick_to_price t = .ok p ∧ price_to_tick p = .ok t' ∧ |t - t'| ≤ 1 := by
  unfold validate_round_trip
  cases h1 : tick_to_price t with
  | error e => simp [h1]
  | ok p =>
    cases h2 : price_to_tick p with
    | error e' => simp [h1, h2]
    | ok t' => simp [h1, h2]

lemma validate_conversion_eq (t : ℤ) (tol : ℚ) :
    validate_conversion t tol = validate_round_trip t := by
  unfold validate_conversion validate_round_trip
  rfl

lemma zpow_MAX_TICK : BASE ^ (559680 : ℤ) = BASE ^ (559680 : ℕ) :=
  zpow_natCast BASE 559680

lemma zpow_neg_MAX_TICK : BASE ^ (-559680 : ℤ) = 1 / BASE ^ (559680 : ℕ) := by
  rw [show (-559680 : ℤ) = -((559680 : ℕ) : ℤ) from rfl, zpow_neg,
    zpow_natCast, one_div]

end NeutronDex

open NeutronDex

/-- C1: for every tick `T` with `|T| ≤ 559680`, converting `T` to a price and
back recovers a tick that differs from `T` by at most 1 (in the exact
arithmetic of the model the recovered tick equals `T`, hence is certainly
within the one-tick tolerance). -/
theorem C1_round_trip_within_one_tick (t : ℤ) (ht : |t| ≤ MAX_TICK) :
    ∃ (p : ℚ) (t' : ℤ),
      tick_to_price t = .ok p ∧ price_to_tick p = .ok t' ∧ |t' - t| ≤ 1 := by
  obtain ⟨p, h1, h2⟩ := round_trip_exact t ht
  exact ⟨p, t, h1, h2, by simp⟩

/-- C1 witness at tick 23027 (the documented ~10:1 example). -/
theorem C1_witness :
    |(23027 : ℤ)| ≤ MAX_TICK ∧
      ∃ (p : ℚ) (t' : ℤ),
        tick_to_price 23027 = .ok p ∧ price_to_tick p = .ok t' ∧
        |t' - 23027| ≤ 1 :=
  ⟨by decide, C1_round_trip_within_one_tick 23027 (by decide)⟩

/-- C2: for every in-range tick, `tick_to_price` succeeds and returns exactly
`BASE ^ tick`: `BASE ^ tick` for `tick ≥ 0` and `1 / BASE ^ |tick|` for
`tick < 0`; the result is strictly positive, and `tick_to_price 0` is
exactly 1. -/
theorem C2_tick_to_price_exact_power :
    (∀ t : ℤ, |t| ≤ MAX_TICK →
      ∃ p : ℚ, tick_to_price t = .ok p ∧ p = BASE ^ t ∧
        (0 ≤ t → p = BASE ^ t.natAbs) ∧
        (t < 0 → p = 1 / BASE ^ t.natAbs) ∧ 0 < p) ∧
    tick_to_price 0 = .ok 1 := by
  constructor
  · intro t ht
    refine ⟨BASE ^ t, tick_to_price_eq t ht, rfl, ?_, ?_, zpow_pos BASE_pos t⟩
    · intro h0
      rw [← zpow_natCast BASE t.natAbs]
      congr 1
      omega
    · intro hneg
      rw [one_div, ← zpow_natCast BASE t.natAbs, ← zpow_neg]
      congr 1
      omega
  · have h := tick_to_price_eq 0 (by decide)
    simpa using h

/-- C2 witness at tick -3. -/
theorem C2_witness :
    |(-3 : ℤ)| ≤ MAX_TICK ∧
      ∃ p : ℚ, tick_to_price (-3) = .ok p ∧ p = BASE ^ (-3 : ℤ) ∧
        (0 ≤ (-3 : ℤ) → p = BASE ^ (-3 : ℤ).natAbs) ∧
        ((-3 : ℤ) < 0 → p = 1 / BASE ^ (-3 : ℤ).natAbs) ∧ 0 < p :=
  ⟨by decide, C2_tick_to_price_exact_power.1 (-3) (by decide)⟩

/-- C3: `tick_to_price` fails exactly when `|tick| > 559680`; in particular
ticks ±559681 fail and ticks ±559680 succeed. -/
theorem C3_tick_range_error_iff :
    (∀ t : ℤ, (∃ e, tick_to_price t = .error e) ↔ 559680 < |t|) ∧
    (∃ e, tick_to_price 559681 = .error e) ∧
    (∃ e, tick_to_price (-559681) = .error e) ∧
    (∃ p, tick_to_price 559680 = .ok p) ∧
    (∃ p, tick_to_price (-559680) = .ok p) := by
  refine ⟨?_, ⟨_, tick_to_price_out_of_range 559681 (by decide)⟩,
    ⟨_, tick_to_price_out_of_range (-559681) (by decide)⟩,
    ⟨_, tick_to_price_eq 559680 (by decide)⟩,
    ⟨_, tick_to_price_eq (-559680) (by decide)⟩⟩
  intro t
  constructor
  · rintro ⟨e, he⟩
    by_contra hc
    push_neg at hc
    rw [tick_to_price_eq t hc] at he
    simp at he
  · intro h
    exact ⟨_, tick_to_price_out_of_range t h⟩

/-- C4: `price_to_tick` fails exactly when the price is non-positive, below
`MIN_PRICE` or above `MAX_PRICE`, and returns an integer tick for every
price in the inclusive range `[MIN_PRICE, MAX_PRICE]`. -/
theorem C4_price_range_error_iff :
    ∀ p : ℚ,
      ((∃ e, price_to_tick p = .error e) ↔
        (p ≤ 0 ∨ p < MIN_PRICE ∨ p > MAX_PRICE)) ∧
      ((∃ t, price_to_tick p = .ok t) ↔
        (MIN_PRICE ≤ p ∧ p ≤ MAX_PRICE)) :=
  fun p => ⟨price_to_tick_error_iff p, price_to_tick_ok_iff p⟩

/-- C5: `tick_to_price` is strictly increasing on in-range ticks, and its
value is strictly positive. -/
theorem C5_tick_to_price_strict_mono (t1 t2 : ℤ)
    (h1 : |t1| ≤ MAX_TICK) (h2 : |t2| ≤ MAX_TICK) (hlt : t1 < t2) :
    ∃ p1 p2 : ℚ,
      tick_to_price t1 = .ok p1 ∧ tick_to_price t2 = .ok p2 ∧
      0 < p1 ∧ p1 < p2 := by
  refine ⟨_, _, tick_to_price_eq t1 h1, tick_to_price_eq t2 h2,
    zpow_pos BASE_pos t1, ?_⟩
  exact zpow_lt_zpow_right₀ one_lt_BASE hlt

/-- C5 witness at ticks -1 < 2. -/
theorem C5_witness :
    |(-1 : ℤ)| ≤ MAX_TICK ∧ |(2 : ℤ)| ≤ MAX_TICK ∧ (-1 : ℤ) < 2 ∧
      ∃ p1 p2 : ℚ,
        tick_to_price (-1) = .ok p1 ∧ tick_to_price 2 = .ok p2 ∧
        0 < p1 ∧ p1 < p2 :=
  ⟨by decide, by decide, by decide,
    C5_tick_to_price_strict_mono (-1) 2 (by decide) (by decide) (by decide)⟩

/-- C6 counterexample: the claim says `price_0to1_to_1to0` fails for every
price ≤ 0, but at the non-positive input -1 the source performs no
validation and returns -1. -/
theorem C6_counterexample :
    ((-1 : ℚ) ≤ 0) ∧ price_0to1_to_1to0 (-1) = .ok (-1) := by
  refine ⟨by norm_num, ?_⟩
  unfold price_0to1_to_1to0
  rw [if_neg (by norm_num)]
  norm_num

/-- C6 amended: `price_0to1_to_1to0` performs no range validation; it fails
(with a division-by-zero error) only at price = 0 and returns `1 / price`
for every nonzero price, negative prices included. -/
theorem C6_reciprocal_no_validation :
    (∀ p : ℚ, p ≠ 0 → price_0to1_to_1to0 p = .ok (1 / p)) ∧
    (∃ e, price_0to1_to_1to0 0 = .error e) := by
  constructor
  · intro p hp
    unfold price_0to1_to_1to0
    rw [if_neg hp]
  · refine ⟨"Division by zero", ?_⟩
    unfold price_0to1_to_1to0
    rw [if_pos rfl]

/-- C6 witness at price 2. -/
theorem C6_witness :
    ((2 : ℚ) ≠ 0) ∧ price_0to1_to_1to0 2 = .ok (1 / 2) :=
  ⟨by norm_num, C6_reciprocal_no_validation.1 2 (by norm_num)⟩

/-- C7: the reciprocal transform is an involution on positive prices: applying
it twice returns the original price exactly. -/
theorem C7_reciprocal_involution (x : ℚ) (hx : 0 < x) :
    ∃ y : ℚ, price_0to1_to_1to0 x = .ok y ∧ price_0to1_to_1to0 y = .ok x := by
  refine ⟨1 / x, ?_, ?_⟩
  · unfold price_0to1_to_1to0
    rw [if_neg hx.ne']
  · unfold price_0to1_to_1to0
    rw [if_neg (one_div_ne_zero hx.ne'), one_div_one_div]

/-- C7 witness at price 4. -/
theorem C7_witness :
    (0 : ℚ) < 4 ∧
      ∃ y : ℚ, price_0to1_to_1to0 4 = .ok y ∧ price_0to1_to_1to0 y = .ok 4 :=
  ⟨by norm_num, C7_reciprocal_involution 4 (by norm_num)⟩

/-- C8 counterexample: `MIN_PRICE` is 4.95e-25 (above 1e-25), not ≈4.95e-27
as claimed, and `tick_to_price 559680 = BASE ^ 559680` falls short of the
`MAX_PRICE` constant by more than 78, so it does not equal `MAX_PRICE` to
the constant's stated 27 fractional digits. -/
theorem C8_counterexample :
    (1 / 10 ^ 25 : ℚ) < MIN_PRICE ∧
    tick_to_price 559680 = .ok (BASE ^ (559680 : ℕ)) ∧
    78 < MAX_PRICE - BASE ^ (559680 : ℕ) := by
  refine ⟨by norm_num [MIN_PRICE], ?_, ?_⟩
  · rw [tick_to_price_eq 559680 (by decide), zpow_MAX_TICK]
  · linarith [MAX_gap_lower]

/-- C8 amended: `MIN_PRICE` is 4.95e-25; it equals `BASE ^ (-MAX_TICK)` to
its own three stated significant digits (the exact power exceeds it by less
than 5e-28), and both constants bracket the exact powers, but `MAX_PRICE`
does not equal `BASE ^ MAX_TICK` to its stated precision:
`tick_to_price 559680` is below the `MAX_PRICE` constant by between 78 and
79 (agreement only to about 21 significant digits). -/
theorem C8_price_bounds_amended :
    MIN_PRICE = 495 / 10 ^ 27 ∧
    tick_to_price (-559680) = .ok (1 / BASE ^ (559680 : ℕ)) ∧
    MIN_PRICE ≤ 1 / BASE ^ (559680 : ℕ) ∧
    1 / BASE ^ (559680 : ℕ) - MIN_PRICE < 5 / 10 ^ 28 ∧
    tick_to_price 559680 = .ok (BASE ^ (559680 : ℕ)) ∧
    BASE ^ (559680 : ℕ) ≤ MAX_PRICE ∧
    78 < MAX_PRICE - BASE ^ (559680 : ℕ) ∧
    MAX_PRICE - BASE ^ (559680 : ℕ) < 79 := by
  refine ⟨rfl, ?_, MIN_le_inv_BASE_pow, by linarith [inv_BASE_pow_gap], ?_,
    BASE_pow_le_MAX, by linarith [MAX_gap_lower], by linarith [MAX_gap_upper]⟩
  · rw [tick_to_price_eq (-559680) (by decide), zpow_neg_MAX_TICK]
  · rw [tick_to_price_eq 559680 (by decide), zpow_MAX_TICK]

/-- C9: `validate_round_trip` is total (any conversion failure is caught and
yields `false`); it returns `true` exactly when both conversions succeed
with a recovered tick within 1, it agrees with the converter's
`validate_conversion` for every tolerance, and it returns `true` at the
extreme ticks ±559680. -/
theorem C9_validate_round_trip_behavior :
    (∀ t : ℤ, validate_round_trip t = true ↔
      ∃ (p : ℚ) (t' : ℤ),
        tick_to_price t = .ok p ∧ price_to_tick p = .ok t' ∧ |t - t'| ≤ 1) ∧
    validate_round_trip 559680 = true ∧
    validate_round_trip (-559680) = true ∧
    (∀ (t : ℤ) (tol : ℚ), validate_conversion t tol = validate_round_trip t) := by
  refine ⟨validate_round_trip_true_iff, ?_, ?_, validate_conversion_eq⟩
  · rw [validate_round_trip_true_iff]
    obtain ⟨p, h1, h2⟩ := round_trip_exact 559680 (by decide)
    exact ⟨p, 559680, h1, h2, by decide⟩
  · rw [validate_round_trip_true_iff]
    obtain ⟨p, h1, h2⟩ := round_trip_exact (-559680) (by decide)
    exact ⟨p, -559680, h1, h2, by decide⟩

/-- C10: for every in-range tick the produced price lies in the inclusive
range `[MIN_PRICE, MAX_PRICE]` accepted by `price_to_tick`, so feeding it
back never raises a range error. -/
theorem C10_output_price_in_accepted_range (t : ℤ) (ht : |t| ≤ MAX_TICK) :
    ∃ p : ℚ, tick_to_price t = .ok p ∧
      MIN_PRICE ≤ p ∧ p ≤ MAX_PRICE ∧
      ∃ t', price_to_tick p = .ok t' := by
  obtain ⟨p, h1, h2⟩ := round_trip_exact t ht
  have hrange := (price_to_tick_ok_iff p).mp ⟨t, h2⟩
  exact ⟨p, h1, hrange.1, hrange.2, t, h2⟩

/-- C10 witness at the extreme tick -559680. -/
theorem C10_witness :
    |(-559680 : ℤ)| ≤ MAX_TICK ∧
      ∃ p : ℚ, tick_to_price (-559680) = .ok p ∧
        MIN_PRICE ≤ p ∧ p ≤ MAX_PRICE ∧
        ∃ t', price_to_tick p = .ok t' :=
  ⟨by decide, C10_output_price_in_accepted_range (-559680) (by decide)⟩
